import Mathlib

/-!
Shallow embedding of the upload-token / document-ingestion workflow of the
claim-portal repository (`src/lib/uploadTokens.ts`, `src/lib/uploadDocument.ts`,
`src/pages/PublicUpload.tsx`).

Modelling conventions:
* Times are epoch milliseconds as `Nat` (`Date.now()`).
* The `claim_documents` table is a `List DbRow`; a supabase `.single()` query
  is `singleRow`: it yields a row exactly when the filter matches exactly one
  row, and `none` on zero matches or on the multi-row error (the TypeScript
  code treats `error || !data` uniformly as `null`).
* JavaScript `null`/`undefined` string fields are `Option String`; the falsy
  check `!x` on a string field is modelled as `x = none` (the fields involved
  are UUIDs, never the empty string, and the one `|| null` coalescing site
  additionally maps `""` to `none` explicitly).
* `new Date(null)` is epoch 0, so a missing `token_expires_at` is read as 0
  (`Option.getD 0`).
* Fallible TypeScript code (`throw`) is `Except`; functions that return
  `null` on failure return `Option`.
-/

namespace ClaimPortal

/-- Scope context returned by the token validators
(`{claimId, companyId, fieldLabel}`). -/
structure ScopeContext where
  claimId : String
  companyId : String
  fieldLabel : String
  deriving Repr, DecidableEq

/-- The JSON `metadata` object written by `saveUploadedDocument`. -/
structure DocMetadata where
  uploader_name : String
  upload_date : Nat
  upload_source : String
  upload_token_used : String
  deriving Repr, DecidableEq

/-- One row of the `claim_documents` table, with the columns this workflow
reads or writes. -/
structure DbRow where
  claim_id : String
  company_id : String
  file_name : String
  file_path : String
  file_type : String
  file_size : Nat
  uploaded_by : Option String
  field_label : String
  upload_token : Option String
  token_expires_at : Option Nat
  uploaded_via_link : Bool
  is_selected : Bool
  metadata : Option DocMetadata
  deriving Repr, DecidableEq

/-- A supabase `.single()` query over the table: exactly one row matching the
filter, else error (= `none`). -/
def singleRow (db : List DbRow) (p : DbRow → Bool) : Option DbRow :=
  match db.filter p with
  | [r] => some r
  | _ => none

/-- Character-level model of `String.startsWith` (kernel-evaluable). -/
def strStartsWith (s pre : String) : Bool :=
  pre.toList.isPrefixOf s.toList

/-- `file_name LIKE __TOKEN_PLACEHOLDER_%`. -/
def isPlaceholderName (s : String) : Bool :=
  strStartsWith s "__TOKEN_PLACEHOLDER_"

/-- `file_name LIKE __BATCH_TOKEN_%`. -/
def isBatchName (s : String) : Bool :=
  strStartsWith s "__BATCH_TOKEN_"

/-- Filter of `validateUploadToken`: `upload_token = token` and the
single-field placeholder name pattern. -/
def tokenRowPred (token : String) (r : DbRow) : Bool :=
  r.upload_token == some token && isPlaceholderName r.file_name

/-- Filter of `validateBatchUploadToken`: `upload_token = token` and either
placeholder name pattern. -/
def batchTokenRowPred (token : String) (r : DbRow) : Bool :=
  r.upload_token == some token
    && (isPlaceholderName r.file_name || isBatchName r.file_name)

/-- `new Date(data.token_expires_at!)` as epoch milliseconds
(`new Date(null)` is epoch 0). -/
def expiryMs (r : DbRow) : Nat :=
  r.token_expires_at.getD 0

/-- The scope context built from a matched token row. -/
def mkScope (r : DbRow) : ScopeContext :=
  { claimId := r.claim_id, companyId := r.company_id, fieldLabel := r.field_label }

/-- `validateUploadToken` from `src/lib/uploadTokens.ts`: empty token ↦ null;
`.single()` lookup by token + placeholder pattern, null on error; null when
`expiresAt < now`; otherwise the scope context. -/
def validateUploadToken (db : List DbRow) (now : Nat) (token : String) :
    Option ScopeContext :=
  if token = "" then none
  else
    match singleRow db (tokenRowPred token) with
    | none => none
    | some r => if expiryMs r < now then none else some (mkScope r)

/-- `validateBatchUploadToken` from `src/lib/uploadTokens.ts`: identical to
`validateUploadToken` except that the name filter also admits
`__BATCH_TOKEN_%` rows. -/
def validateBatchUploadToken (db : List DbRow) (now : Nat) (token : String) :
    Option ScopeContext :=
  if token = "" then none
  else
    match singleRow db (batchTokenRowPred token) with
    | none => none
    | some r => if expiryMs r < now then none else some (mkScope r)

theorem singleRow_eq_some (db : List DbRow) (p : DbRow → Bool) (r : DbRow) :
    singleRow db p = some r ↔ db.filter p = [r] := by
  unfold singleRow
  cases h : db.filter p with
  | nil => simp
  | cons a l =>
    cases l with
    | nil => simp
    | cons b l' => simp

theorem singleRow_eq_none (db : List DbRow) (p : DbRow → Bool) :
    singleRow db p = none ↔ ∀ r, db.filter p ≠ [r] := by
  unfold singleRow
  cases h : db.filter p with
  | nil => simp
  | cons a l =>
    cases l with
    | nil => simp
    | cons b l' => simp

/-- Shared characterization of both validators. -/
theorem validateCore_eq_some_iff (db : List DbRow) (now : Nat) (t : String)
    (p : String → DbRow → Bool) (ctx : ScopeContext) :
    (if t = "" then none
     else
       match singleRow db (p t) with
       | none => none
       | some r => if expiryMs r < now then none else some (mkScope r)) = some ctx ↔
      t ≠ "" ∧ ∃ r, db.filter (p t) = [r] ∧ ¬ expiryMs r < now ∧ ctx = mkScope r := by
  by_cases ht : t = ""
  · simp [ht]
  · rw [if_neg ht]
    simp only [ne_eq, ht, not_false_iff, true_and]
    cases hs : singleRow db (p t) with
    | none =>
      rw [singleRow_eq_none] at hs
      constructor
      · intro h; exact absurd h (by simp)
      · rintro ⟨r, hr, -, -⟩; exact absurd hr (hs r)
    | some r =>
      rw [singleRow_eq_some] at hs
      dsimp only
      by_cases he : expiryMs r < now
      · rw [if_pos he]
        constructor
        · intro h; exact absurd h (by simp)
        · rintro ⟨r', hr', he', -⟩
          rw [hs] at hr'
          cases hr'
          exact absurd he he'
      · rw [if_neg he]
        constructor
        · intro h
          exact ⟨r, hs, he, (Option.some_injective _ h).symm⟩
        · rintro ⟨r', hr', -, hctx⟩
          rw [hs] at hr'
          cases hr'
          rw [hctx]

/-- Example batch-token row expiring at epoch millisecond 1000, as inserted by
`generateBatchUploadToken`. -/
def exBatchRow : DbRow where
  claim_id := "claim-1"
  company_id := "co-1"
  file_name := "__BATCH_TOKEN_tok-1__"
  file_path := "__BATCH_TOKEN_tok-1__"
  file_type := "application/batch-token"
  file_size := 0
  uploaded_by := some "issuer-1"
  field_label := "Batch Upload"
  upload_token := some "tok-1"
  token_expires_at := some 1000
  uploaded_via_link := false
  is_selected := false
  metadata := none

set_option maxRecDepth 16384 in
/-- C1 (counterexample): at the instant `now = expiresAt` the validator still
returns the scope context, although the claim requires success only when `now`
is strictly before `expiresAt`. The code rejects only when `expiresAt < now`. -/
theorem validate_strict_before_counterexample :
    validateBatchUploadToken [exBatchRow] 1000 "tok-1" =
        some { claimId := "claim-1", companyId := "co-1", fieldLabel := "Batch Upload" }
      ∧ ¬ (1000 < expiryMs exBatchRow) := by
  exact ⟨by decide, by decide⟩

/-- C1 (amended): `validateBatchUploadToken` (resp. `validateUploadToken`)
returns the scope context `{claimId, companyId, fieldLabel}` of the matched
row iff the token is non-empty, the table holds exactly one matching token
row, and the expiry has not passed, i.e. `now ≤ expiresAt` (non-strict: the
instant `now = expiresAt` is still accepted); in every other case — empty
token, no matching record, ambiguous lookup (the `.single()` error), or
`expiresAt < now` — the validator returns `none` rather than throwing (it is
total with result type `Option`). -/
theorem validate_token_iff (db : List DbRow) (now : Nat) (t : String)
    (ctx : ScopeContext) :
    (validateBatchUploadToken db now t = some ctx ↔
      t ≠ "" ∧ ∃ r, db.filter (batchTokenRowPred t) = [r]
        ∧ ¬ expiryMs r < now ∧ ctx = mkScope r)
    ∧ (validateUploadToken db now t = some ctx ↔
      t ≠ "" ∧ ∃ r, db.filter (tokenRowPred t) = [r]
        ∧ ¬ expiryMs r < now ∧ ctx = mkScope r) :=
  ⟨validateCore_eq_some_iff db now t batchTokenRowPred ctx,
   validateCore_eq_some_iff db now t tokenRowPred ctx⟩

/-- Result record returned by the issuers (`UploadTokenData` in the source). -/
structure UploadTokenData where
  token : String
  claimId : String
  companyId : String
  fieldLabel : String
  expiresAt : Nat
  uploadUrl : String
  deriving Repr, DecidableEq

/-- Failure taxonomy of the issuers: `"User not authenticated"`,
`"User has no company_id"`, and a rethrown persistence error. -/
inductive IssueError
  | unauthorized
  | preconditionFailed
  | storageError (msg : String)
  deriving Repr, DecidableEq

/-- Ambient state read by the issuers: `supabase.auth.getUser()`, the `users`
table (`id ↦ company_id`, with a missing row and a null `company_id` both
`none`), the outcome of the insert, `Date.now()`, `window.location.origin`
and the value `crypto.randomUUID()` will produce. -/
structure IssuerEnv where
  currentUser : Option String
  usersCompany : String → Option String
  insertFails : Option String
  nowMs : Nat
  origin : String
  newUuid : String

/-- The placeholder row `generateUploadToken` inserts into `claim_documents`. -/
def singleTokenRow (env : IssuerEnv) (claimId fieldLabel companyId uid : String)
    (expiryDays : Nat) : DbRow where
  claim_id := claimId
  company_id := companyId
  file_name := "__TOKEN_PLACEHOLDER_" ++ env.newUuid ++ "__"
  file_path := "__TOKEN_PLACEHOLDER_" ++ env.newUuid ++ "__"
  file_type := "application/token-placeholder"
  file_size := 0
  uploaded_by := some uid
  field_label := fieldLabel
  upload_token := some env.newUuid
  token_expires_at := some (env.nowMs + expiryDays * 24 * 60 * 60 * 1000)
  uploaded_via_link := false
  is_selected := false
  metadata := none

/-- `generateUploadToken` from `src/lib/uploadTokens.ts`: auth check, company
lookup, insert of the placeholder row, then the `UploadTokenData` result with
`expiresAt = Date.now() + expiryDays*24*60*60*1000` (default 7 days) and the
distributable URL. Returns the new table state alongside the result. -/
def generateUploadToken (env : IssuerEnv) (db : List DbRow)
    (claimId fieldLabel : String) (expiryDays : Nat := 7) :
    Except IssueError (UploadTokenData × List DbRow) :=
  match env.currentUser with
  | none => .error .unauthorized
  | some uid =>
    match env.usersCompany uid with
    | none => .error .preconditionFailed
    | some companyId =>
      match env.insertFails with
      | some e => .error (.storageError e)
      | none =>
        .ok ({ token := env.newUuid
               claimId := claimId
               companyId := companyId
               fieldLabel := fieldLabel
               expiresAt := env.nowMs + expiryDays * 24 * 60 * 60 * 1000
               uploadUrl := env.origin ++ "/public-upload?token=" ++ env.newUuid },
             db ++ [singleTokenRow env claimId fieldLabel companyId uid expiryDays])

/-- The placeholder row `generateBatchUploadToken` inserts. -/
def batchTokenRow (env : IssuerEnv) (claimId companyId uid : String)
    (expiryHours : Nat) : DbRow where
  claim_id := claimId
  company_id := companyId
  file_name := "__BATCH_TOKEN_" ++ env.newUuid ++ "__"
  file_path := "__BATCH_TOKEN_" ++ env.newUuid ++ "__"
  file_type := "application/batch-token"
  file_size := 0
  uploaded_by := some uid
  field_label := "Batch Upload"
  upload_token := some env.newUuid
  token_expires_at := some (env.nowMs + expiryHours * 60 * 60 * 1000)
  uploaded_via_link := false
  is_selected := false
  metadata := none

/-- `generateBatchUploadToken` from `src/lib/uploadTokens.ts`:
`expiresAt = Date.now() + expiryHours*60*60*1000` (default 168 hours),
field label fixed to `"Batch Upload"`. -/
def generateBatchUploadToken (env : IssuerEnv) (db : List DbRow)
    (claimId : String) (expiryHours : Nat := 168) :
    Except IssueError (UploadTokenData × List DbRow) :=
  match env.currentUser with
  | none => .error .unauthorized
  | some uid =>
    match env.usersCompany uid with
    | none => .error .preconditionFailed
    | some companyId =>
      match env.insertFails with
      | some e => .error (.storageError e)
      | none =>
        .ok ({ token := env.newUuid
               claimId := claimId
               companyId := companyId
               fieldLabel := "Batch Upload"
               expiresAt := env.nowMs + expiryHours * 60 * 60 * 1000
               uploadUrl := env.origin ++ "/public-upload?token=" ++ env.newUuid },
             db ++ [batchTokenRow env claimId companyId uid expiryHours])

/-- Concrete issuer environment in which issuance succeeds. -/
def exIssuerEnv : IssuerEnv where
  currentUser := some "issuer-1"
  usersCompany := fun uid => if uid = "issuer-1" then some "co-1" else none
  insertFails := none
  nowMs := 0
  origin := "https://portal.example"
  newUuid := "tok-1"

set_option maxRecDepth 16384 in
/-- C5 (counterexample): the issuer applies no bound to the requested ttl —
a call with `expiryDays = 31` issues a token whose `expiresAt` lies more than
30 days after issuance time. -/
theorem generate_ttl_unbounded_counterexample :
    generateUploadToken exIssuerEnv [] "claim-1" "Invoice" 31 =
      .ok ({ token := "tok-1", claimId := "claim-1", companyId := "co-1",
             fieldLabel := "Invoice", expiresAt := 2678400000,
             uploadUrl := "https://portal.example/public-upload?token=tok-1" },
           [singleTokenRow exIssuerEnv "claim-1" "Invoice" "co-1" "issuer-1" 31])
      ∧ exIssuerEnv.nowMs + 30 * 24 * 60 * 60 * 1000 < 2678400000 := by
  exact ⟨rfl, by norm_num [exIssuerEnv]⟩

/-- C5 (amended): neither issuer clamps the requested ttl: every successfully
issued token has `expiresAt` exactly `now + ttl` for whatever ttl was
requested; only the default ttls (7 days single-field, 168 hours batch) keep
`expiresAt` within 30 days of issuance. -/
theorem generate_expiry_eq_now_add_ttl (env : IssuerEnv) (db : List DbRow)
    (c f : String) (d hrs : Nat) (data dataB : UploadTokenData)
    (db1 db2 : List DbRow)
    (hs : generateUploadToken env db c f d = .ok (data, db1))
    (hb : generateBatchUploadToken env db c hrs = .ok (dataB, db2)) :
    data.expiresAt = env.nowMs + d * 24 * 60 * 60 * 1000
    ∧ dataB.expiresAt = env.nowMs + hrs * 60 * 60 * 1000
    ∧ (d = 7 → data.expiresAt ≤ env.nowMs + 30 * 24 * 60 * 60 * 1000)
    ∧ (hrs = 168 → dataB.expiresAt ≤ env.nowMs + 30 * 24 * 60 * 60 * 1000) := by
  unfold generateUploadToken at hs
  unfold generateBatchUploadToken at hb
  cases hu : env.currentUser with
  | none => rw [hu] at hs; simp at hs
  | some uid =>
    rw [hu] at hs hb
    dsimp only at hs hb
    cases hc : env.usersCompany uid with
    | none => rw [hc] at hs; simp at hs
    | some co =>
      rw [hc] at hs hb
      dsimp only at hs hb
      cases hi : env.insertFails with
      | some m => rw [hi] at hs; simp at hs
      | none =>
        rw [hi] at hs hb
        dsimp only at hs hb
        simp only [Except.ok.injEq, Prod.mk.injEq] at hs hb
        obtain ⟨hd, -⟩ := hs
        obtain ⟨hdB, -⟩ := hb
        subst hd hdB
        refine ⟨rfl, rfl, ?_, ?_⟩
        · rintro rfl; dsimp only; omega
        · rintro rfl; dsimp only; omega

/-- Concrete result of `generateUploadToken` on `exIssuerEnv` with the
default 7-day ttl. -/
def exData7 : UploadTokenData where
  token := "tok-1"
  claimId := "claim-1"
  companyId := "co-1"
  fieldLabel := "Invoice"
  expiresAt := 604800000
  uploadUrl := "https://portal.example/public-upload?token=tok-1"

/-- Concrete result of `generateBatchUploadToken` on `exIssuerEnv` with the
default 168-hour ttl. -/
def exDataBatch : UploadTokenData where
  token := "tok-1"
  claimId := "claim-1"
  companyId := "co-1"
  fieldLabel := "Batch Upload"
  expiresAt := 604800000
  uploadUrl := "https://portal.example/public-upload?token=tok-1"

set_option maxRecDepth 16384 in
/-- C5 witness: the amended theorem applied to a concrete successful issuance
with the default ttls. -/
theorem generate_expiry_eq_now_add_ttl_witness :
    exData7.expiresAt = exIssuerEnv.nowMs + 7 * 24 * 60 * 60 * 1000
    ∧ exDataBatch.expiresAt = exIssuerEnv.nowMs + 168 * 60 * 60 * 1000
    ∧ (7 = 7 → exData7.expiresAt ≤ exIssuerEnv.nowMs + 30 * 24 * 60 * 60 * 1000)
    ∧ (168 = 168 →
        exDataBatch.expiresAt ≤ exIssuerEnv.nowMs + 30 * 24 * 60 * 60 * 1000) :=
  generate_expiry_eq_now_add_ttl exIssuerEnv [] "claim-1" "Invoice" 7 168
    exData7 exDataBatch
    [singleTokenRow exIssuerEnv "claim-1" "Invoice" "co-1" "issuer-1" 7]
    [batchTokenRow exIssuerEnv "claim-1" "co-1" "issuer-1" 168]
    rfl rfl

/-- C6: each issuer fails — by returning the error to the caller from a single
straight-line attempt, never retrying — exactly in three cases: no
authenticated user (`Unauthorized`), unresolvable company
(`PreconditionFailed`), or a failed persistence insert (`StorageError`
carrying the insert error); on success exactly one new token row is appended
to the table, keyed by the returned token with
`token_expires_at = now + ttl`, and the returned data has
`expiresAt = now + ttl` and URL `<origin>/public-upload?token=<token>`. -/
theorem generate_failure_modes (env : IssuerEnv) (db : List DbRow)
    (c f : String) (d hrs : Nat) :
    (∀ e, generateUploadToken env db c f d = .error e ↔
        (env.currentUser = none ∧ e = .unauthorized)
        ∨ (∃ uid, env.currentUser = some uid ∧ env.usersCompany uid = none
            ∧ e = .preconditionFailed)
        ∨ (∃ uid co m, env.currentUser = some uid
            ∧ env.usersCompany uid = some co ∧ env.insertFails = some m
            ∧ e = .storageError m))
    ∧ (∀ data db', generateUploadToken env db c f d = .ok (data, db') →
        data.token = env.newUuid
        ∧ data.expiresAt = env.nowMs + d * 24 * 60 * 60 * 1000
        ∧ data.uploadUrl = env.origin ++ "/public-upload?token=" ++ env.newUuid
        ∧ ∃ r, db' = db ++ [r]
            ∧ r.upload_token = some data.token
            ∧ r.token_expires_at = some data.expiresAt)
    ∧ (∀ e, generateBatchUploadToken env db c hrs = .error e ↔
        (env.currentUser = none ∧ e = .unauthorized)
        ∨ (∃ uid, env.currentUser = some uid ∧ env.usersCompany uid = none
            ∧ e = .preconditionFailed)
        ∨ (∃ uid co m, env.currentUser = some uid
            ∧ env.usersCompany uid = some co ∧ env.insertFails = some m
            ∧ e = .storageError m))
    ∧ (∀ data db', generateBatchUploadToken env db c hrs = .ok (data, db') →
        data.token = env.newUuid
        ∧ data.expiresAt = env.nowMs + hrs * 60 * 60 * 1000
        ∧ data.uploadUrl = env.origin ++ "/public-upload?token=" ++ env.newUuid
        ∧ ∃ r, db' = db ++ [r]
            ∧ r.upload_token = some data.token
            ∧ r.token_expires_at = some data.expiresAt) := by
  refine ⟨?_, ?_, ?_, ?_⟩
  · intro e
    unfold generateUploadToken
    cases hu : env.currentUser with
    | none => simp [eq_comm]
    | some uid =>
      dsimp only
      cases hc : env.usersCompany uid with
      | none => simp [hc, eq_comm]
      | some co =>
        dsimp only
        cases hi : env.insertFails with
        | some m => simp [hc, hi, eq_comm]
        | none => simp [hc, hi]
  · intro data db' h
    unfold generateUploadToken at h
    cases hu : env.currentUser with
    | none => rw [hu] at h; simp at h
    | some uid =>
      rw [hu] at h
      dsimp only at h
      cases hc : env.usersCompany uid with
      | none => rw [hc] at h; simp at h
      | some co =>
        rw [hc] at h
        dsimp only at h
        cases hi : env.insertFails with
        | some m => rw [hi] at h; simp at h
        | none =>
          rw [hi] at h
          dsimp only at h
          simp only [Except.ok.injEq, Prod.mk.injEq] at h
          obtain ⟨hdata, hdb⟩ := h
          subst hdata hdb
          exact ⟨rfl, rfl, rfl, singleTokenRow env c f co uid d, rfl, rfl, rfl⟩
  · intro e
    unfold generateBatchUploadToken
    cases hu : env.currentUser with
    | none => simp [eq_comm]
    | some uid =>
      dsimp only
      cases hc : env.usersCompany uid with
      | none => simp [hc, eq_comm]
      | some co =>
        dsimp only
        cases hi : env.insertFails with
        | some m => simp [hc, hi, eq_comm]
        | none => simp [hc, hi]
  · intro data db' h
    unfold generateBatchUploadToken at h
    cases hu : env.currentUser with
    | none => rw [hu] at h; simp at h
    | some uid =>
      rw [hu] at h
      dsimp only at h
      cases hc : env.usersCompany uid with
      | none => rw [hc] at h; simp at h
      | some co =>
        rw [hc] at h
        dsimp only at h
        cases hi : env.insertFails with
        | some m => rw [hi] at h; simp at h
        | none =>
          rw [hi] at h
          dsimp only at h
          simp only [Except.ok.injEq, Prod.mk.injEq] at h
          obtain ⟨hdata, hdb⟩ := h
          subst hdata hdb
          exact ⟨rfl, rfl, rfl, batchTokenRow env c co uid hrs, rfl, rfl, rfl⟩

/-- Issuer environment with no authenticated user. -/
def exIssuerEnvNoAuth : IssuerEnv :=
  { exIssuerEnv with currentUser := none }

/-- C6 witness: with no authenticated user the single-field issuer fails with
`Unauthorized`, by the failure-mode theorem. -/
theorem generate_failure_modes_witness :
    generateUploadToken exIssuerEnvNoAuth [] "claim-1" "Invoice" 7 =
      .error .unauthorized :=
  ((generate_failure_modes exIssuerEnvNoAuth [] "claim-1" "Invoice" 7 168).1
      .unauthorized).2 (Or.inl ⟨rfl, rfl⟩)

/-- JavaScript `x || null` on a nullable string field: `null` and `""` both
collapse to `none`. -/
def jsOrNull (x : Option String) : Option String :=
  match x with
  | some s => if s = "" then none else some s
  | none => none

/-- Lookup filter of `saveUploadedDocument`'s `maybeSingle` query:
`upload_token = token` and either placeholder name pattern. -/
def saveLookupPred (token : String) (r : DbRow) : Bool :=
  r.upload_token == some token
    && (isBatchName r.file_name || isPlaceholderName r.file_name)

/-- `tokenData?.uploaded_by || null`: the issuer recorded on the unique
matching token row when resolvable; zero matches, the multi-row
`maybeSingle` error (warn-only in the source), a null `uploaded_by` and an
empty string all yield `none`. -/
def tokenIssuerOf (db : List DbRow) (token : String) : Option String :=
  match db.filter (saveLookupPred token) with
  | [r] => jsOrNull r.uploaded_by
  | _ => none

/-- Character-list splitter modelling JavaScript `String.split(sep)`. -/
def splitChars (sep : Char) : List Char → List (List Char)
  | [] => [[]]
  | c :: cs =>
    let rest := splitChars sep cs
    if c = sep then [] :: rest
    else (c :: rest.headD []) :: rest.tail

/-- `fileName.split('.').pop() || 'unknown'`. -/
def fileExt (fileName : String) : String :=
  match (splitChars '.' fileName.toList).getLast? with
  | some s => if s = [] then "unknown" else ⟨s⟩
  | none => "unknown"

/-- The document row `saveUploadedDocument` inserts. -/
def savedRowOf (db : List DbRow) (nowMs : Nat)
    (claimId companyId fileName fileUrl : String) (fileSize : Nat)
    (uploaderName token : String) : DbRow where
  claim_id := claimId
  company_id := companyId
  file_name := fileName
  file_path := fileUrl
  file_type := fileExt fileName
  file_size := fileSize
  uploaded_by := tokenIssuerOf db token
  field_label := "Uploaded by: " ++ uploaderName
  upload_token := none
  token_expires_at := none
  uploaded_via_link := true
  is_selected := false
  metadata := some { uploader_name := uploaderName
                     upload_date := nowMs
                     upload_source := "public_link"
                     upload_token_used := token }

/-- `saveUploadedDocument` from `src/lib/uploadTokens.ts`: reads the source
token row's `uploaded_by` (lookup failure only warned), then inserts one new
document row; throws exactly when the insert fails. -/
def saveUploadedDocument (insertFails : Option String) (nowMs : Nat)
    (db : List DbRow) (claimId companyId fileName fileUrl : String)
    (fileSize : Nat) (uploaderName token : String) :
    Except String (List DbRow) :=
  match insertFails with
  | some e => .error e
  | none =>
    .ok (db ++ [savedRowOf db nowMs claimId companyId fileName fileUrl
                  fileSize uploaderName token])

theorem filter_append_single (db : List DbRow) (r : DbRow) (p : DbRow → Bool)
    (hp : p r = false) : (db ++ [r]).filter p = db.filter p := by
  simp [List.filter_append, hp]

theorem singleRow_append_notmatch (db : List DbRow) (r : DbRow)
    (p : DbRow → Bool) (hp : p r = false) :
    singleRow (db ++ [r]) p = singleRow db p := by
  unfold singleRow
  rw [filter_append_single db r p hp]

theorem validate_append_nontoken (db : List DbRow) (r : DbRow)
    (hr : r.upload_token = none) (t : String) (now : Nat) :
    validateBatchUploadToken (db ++ [r]) now t = validateBatchUploadToken db now t
    ∧ validateUploadToken (db ++ [r]) now t = validateUploadToken db now t := by
  have hb : batchTokenRowPred t r = false := by
    unfold batchTokenRowPred; rw [hr]; rfl
  have hs : tokenRowPred t r = false := by
    unfold tokenRowPred; rw [hr]; rfl
  constructor
  · unfold validateBatchUploadToken
    rw [singleRow_append_notmatch db r (batchTokenRowPred t) hb]
  · unfold validateUploadToken
    rw [singleRow_append_notmatch db r (tokenRowPred t) hs]

/-- C7: a successful upload never mutates, deletes or invalidates the token
record — `saveUploadedDocument` only appends one row whose `upload_token` is
null, so for every token both validators return exactly the same result, at
every time, after the upload as before it; in particular a still-unexpired
token keeps validating to the same scope context, and one token may back many
uploads within its validity window. (`uploadDocument` does not touch the
table at all.) -/
theorem save_preserves_token_validation (ins : Option String) (nowMs : Nat)
    (db : List DbRow) (c co fn url : String) (sz : Nat) (un tok : String)
    (db' : List DbRow)
    (h : saveUploadedDocument ins nowMs db c co fn url sz un tok = .ok db') :
    ∀ t now,
      validateBatchUploadToken db' now t = validateBatchUploadToken db now t
      ∧ validateUploadToken db' now t = validateUploadToken db now t := by
  cases ins with
  | some e => simp [saveUploadedDocument] at h
  | none =>
    simp only [saveUploadedDocument, Except.ok.injEq] at h
    subst h
    intro t now
    exact validate_append_nontoken db _ rfl t now

set_option maxRecDepth 16384 in
/-- C7 witness: a concrete successful upload against `exBatchRow`'s token
leaves that token validating identically (and still returning its scope). -/
theorem save_preserves_token_validation_witness :
    validateBatchUploadToken
        ([exBatchRow] ++ [savedRowOf [exBatchRow] 500 "claim-1" "co-1"
            "photo.jpg" "https://cdn.example/photo.jpg" 123 "Alice" "tok-1"])
        500 "tok-1"
      = validateBatchUploadToken [exBatchRow] 500 "tok-1"
    ∧ validateBatchUploadToken [exBatchRow] 500 "tok-1" =
        some { claimId := "claim-1", companyId := "co-1",
               fieldLabel := "Batch Upload" } :=
  ⟨(save_preserves_token_validation none 500 [exBatchRow] "claim-1" "co-1"
      "photo.jpg" "https://cdn.example/photo.jpg" 123 "Alice" "tok-1" _ rfl
      "tok-1" 500).1,
   by decide⟩

theorem jsOrNull_eq_some (x : Option String) (u : String) :
    jsOrNull x = some u ↔ x = some u ∧ u ≠ "" := by
  cases x with
  | none => simp [jsOrNull]
  | some s =>
    by_cases hs : s = ""
    · subst hs
      constructor
      · intro h; simp [jsOrNull] at h
      · rintro ⟨h1, h2⟩
        injection h1 with h1'
        subst h1'
        exact absurd rfl h2
    · constructor
      · intro h
        simp only [jsOrNull, if_neg hs] at h
        injection h with h'
        subst h'
        exact ⟨rfl, hs⟩
      · rintro ⟨h1, -⟩
        injection h1 with h1'
        subst h1'
        simp [jsOrNull, hs]

theorem tokenIssuerOf_eq_some (db : List DbRow) (tok u : String) :
    tokenIssuerOf db tok = some u ↔
      ∃ row, db.filter (saveLookupPred tok) = [row]
        ∧ row.uploaded_by = some u ∧ u ≠ "" := by
  unfold tokenIssuerOf
  cases hf : db.filter (saveLookupPred tok) with
  | nil => simp
  | cons a l =>
    cases l with
    | nil =>
      dsimp only
      rw [jsOrNull_eq_some]
      constructor
      · rintro ⟨h1, h2⟩; exact ⟨a, rfl, h1, h2⟩
      · rintro ⟨row, hrow, h1, h2⟩
        injection hrow with hr hr'
        subst hr
        exact ⟨h1, h2⟩
    | cons b l' =>
      dsimp only
      constructor
      · intro h; cases h
      · rintro ⟨row, hrow, -, -⟩
        cases hrow

/-- C9: on success `saveUploadedDocument` appends exactly one new document
row; its `uploaded_by` is `some u` exactly when the source token's unique
token row records issuer `u` (non-null, non-empty) — i.e. the original issuer
when resolvable, null otherwise; the row is flagged as uploaded via public
link, and the uploader's free-text name is recorded in the field label and in
the metadata. -/
theorem save_writes_one_attributed_row (ins : Option String) (nowMs : Nat)
    (db : List DbRow) (c co fn url : String) (sz : Nat) (un tok : String)
    (db' : List DbRow)
    (h : saveUploadedDocument ins nowMs db c co fn url sz un tok = .ok db') :
    db' = db ++ [savedRowOf db nowMs c co fn url sz un tok]
    ∧ db'.length = db.length + 1
    ∧ (∀ u, (savedRowOf db nowMs c co fn url sz un tok).uploaded_by = some u ↔
        ∃ row, db.filter (saveLookupPred tok) = [row]
          ∧ row.uploaded_by = some u ∧ u ≠ "")
    ∧ (savedRowOf db nowMs c co fn url sz un tok).uploaded_via_link = true
    ∧ (savedRowOf db nowMs c co fn url sz un tok).field_label =
        "Uploaded by: " ++ un
    ∧ (savedRowOf db nowMs c co fn url sz un tok).metadata =
        some { uploader_name := un, upload_date := nowMs,
               upload_source := "public_link", upload_token_used := tok } := by
  cases ins with
  | some e => simp [saveUploadedDocument] at h
  | none =>
    simp only [saveUploadedDocument, Except.ok.injEq] at h
    subst h
    exact ⟨rfl, by simp, fun u => tokenIssuerOf_eq_some db tok u,
           rfl, rfl, rfl⟩

set_option maxRecDepth 16384 in
/-- C9 witness: uploading against `exBatchRow`'s token attributes the saved
row to that token's issuer. -/
theorem save_writes_one_attributed_row_witness :
    (savedRowOf [exBatchRow] 500 "claim-1" "co-1" "photo.jpg"
        "https://cdn.example/photo.jpg" 123 "Alice" "tok-1").uploaded_by
      = some "issuer-1" :=
  ((save_writes_one_attributed_row none 500 [exBatchRow] "claim-1" "co-1"
      "photo.jpg" "https://cdn.example/photo.jpg" 123 "Alice" "tok-1" _
      rfl).2.2.1 "issuer-1").2
    ⟨exBatchRow, by decide, rfl, by decide⟩

/-- A browser `File`: name and size in bytes. -/
structure JsFile where
  name : String
  size : Nat
  deriving Repr, DecidableEq

/-- `MAX_FILE_SIZE = 5 * 1024 * 1024` bytes. -/
def MAX_FILE_SIZE : Nat := 5 * 1024 * 1024

/-- Decimal rendering of `(bytes / 1024 / 1024).toFixed(2)`, via exact
rational rounding to hundredths of a mebibyte (the float computation agrees
at every input appearing in this development). -/
def mbFixed2 (bytes : Nat) : String :=
  let hundredths := (bytes * 100 + 524288) / 1048576
  toString (hundredths / 100) ++ "."
    ++ (if hundredths % 100 < 10 then "0" else "") ++ toString (hundredths % 100)

/-- Response of the ingestion POST, with its parsed JSON body on success
(`undefined` JSON fields are `none`) and its plain-text body on failure. -/
structure HttpResponse where
  ok : Bool
  bodyText : String
  jsonUrl : Option String
  jsonFileUrl : Option String
  jsonFileName : Option String
  deriving Repr, DecidableEq

/-- `UploadDocumentResponse` from `src/lib/uploadDocument.ts`. -/
structure UploadDocumentResponse where
  success : Bool
  url : String
  fileName : String
  deriving Repr, DecidableEq

/-- JavaScript `a || b` on a possibly-undefined string (`undefined` and `""`
fall through to `b`). -/
def jsOrStr (a : Option String) (b : String) : String :=
  match a with
  | some s => if s = "" then b else s
  | none => b

instance {ε α : Type} [DecidableEq ε] [DecidableEq α] :
    DecidableEq (Except ε α) := fun a b =>
  match a, b with
  | .error x, .error y =>
    if h : x = y then isTrue (by rw [h])
    else isFalse (by intro hh; cases hh; exact h rfl)
  | .ok x, .ok y =>
    if h : x = y then isTrue (by rw [h])
    else isFalse (by intro hh; cases hh; exact h rfl)
  | .error _, .ok _ => isFalse (by intro hh; cases hh)
  | .ok _, .error _ => isFalse (by intro hh; cases hh)

/-- Outcome of one `uploadDocument` call: whether the POST was actually
issued, and the returned value or thrown error message. -/
structure UploadAttempt where
  fetched : Bool
  result : Except String UploadDocumentResponse
  deriving Repr, DecidableEq

/-- `uploadDocument` from `src/lib/uploadDocument.ts`: rejects oversize files
before issuing the POST; on a non-2xx response throws the server-provided
body text (`"Upload failed"` when that text is empty); on success returns
`result.url || result.fileUrl` and `result.fileName || file.name`
(`undefined` modelled as `""` in the `url` fallback chain). -/
def uploadDocument (resp : HttpResponse) (file : JsFile) : UploadAttempt :=
  if file.size > MAX_FILE_SIZE then
    { fetched := false
      result := .error ("File size exceeds 5MB limit. Current size: "
        ++ mbFixed2 file.size ++ "MB") }
  else if resp.ok then
    { fetched := true
      result := .ok { success := true
                      url := jsOrStr resp.jsonUrl (jsOrStr resp.jsonFileUrl "")
                      fileName := jsOrStr resp.jsonFileName file.name } }
  else
    { fetched := true
      result := .error (if resp.bodyText = "" then "Upload failed"
        else resp.bodyText) }

/-- Result shape of `validateFileSize` (`{valid, error?}` in the source). -/
structure SizeValidation where
  valid : Bool
  errorMsg : Option String
  deriving Repr, DecidableEq

/-- `validateFileSize` from `src/lib/uploadDocument.ts`: its error message,
unlike `uploadDocument`'s, names the offending file. -/
def validateFileSize (file : JsFile) : SizeValidation :=
  if file.size > MAX_FILE_SIZE then
    { valid := false
      errorMsg := some ("File \"" ++ file.name ++ "\" exceeds 5MB limit ("
        ++ mbFixed2 file.size ++ "MB)") }
  else { valid := true, errorMsg := none }

/-- Concrete successful ingestion response. -/
def exRespOk : HttpResponse where
  ok := true
  bodyText := ""
  jsonUrl := some "https://cdn.example/stored"
  jsonFileUrl := none
  jsonFileName := none

set_option maxRecDepth 16384 in
/-- C4 (counterexample): `uploadDocument`'s size-rejection message depends on
the size alone — two 5,242,881-byte files with different names are rejected
with the identical message, so that message does not name the offending file
(only `validateFileSize`'s message does). -/
theorem uploadDocument_reject_unnamed_counterexample :
    uploadDocument exRespOk { name := "alpha.pdf", size := 5242881 } =
      { fetched := false
        result := .error "File size exceeds 5MB limit. Current size: 5.00MB" }
    ∧ uploadDocument exRespOk { name := "beta.pdf", size := 5242881 } =
      { fetched := false
        result := .error "File size exceeds 5MB limit. Current size: 5.00MB" } := by
  exact ⟨by decide, by decide⟩

/-- C4 (amended): a file of exactly 5,242,880 bytes passes both size checks
(`uploadDocument` issues the POST, `validateFileSize` reports valid); a file
of 5,242,881 bytes is rejected before any network transfer
(`fetched = false`); `validateFileSize`'s error names the offending file and
its size, while `uploadDocument`'s error reports only the size. -/
theorem size_boundary (resp : HttpResponse) (nm : String) :
    (uploadDocument resp { name := nm, size := 5242880 }).fetched = true
    ∧ validateFileSize { name := nm, size := 5242880 } =
        { valid := true, errorMsg := none }
    ∧ (uploadDocument resp { name := nm, size := 5242881 }).fetched = false
    ∧ (uploadDocument resp { name := nm, size := 5242881 }).result =
        .error ("File size exceeds 5MB limit. Current size: "
          ++ mbFixed2 5242881 ++ "MB")
    ∧ validateFileSize { name := nm, size := 5242881 } =
        { valid := false
          errorMsg := some ("File \"" ++ nm ++ "\" exceeds 5MB limit ("
            ++ mbFixed2 5242881 ++ "MB)") } := by
  refine ⟨?_, ?_, ?_, ?_, ?_⟩
  · by_cases h : resp.ok <;> simp [uploadDocument, MAX_FILE_SIZE, h]
  · simp [validateFileSize, MAX_FILE_SIZE]
  · simp [uploadDocument, MAX_FILE_SIZE]
  · simp [uploadDocument, MAX_FILE_SIZE]
  · simp [validateFileSize, MAX_FILE_SIZE]

/-- Per-file upload status in `PublicUpload.tsx`. -/
inductive FileStatus
  | pending
  | uploading
  | success
  | error
  deriving Repr, DecidableEq

/-- One entry of the `files` state array (`UploadedFile` in the source). -/
structure UploadedFile where
  file : JsFile
  status : FileStatus
  url : Option String
  errorMsg : Option String
  deriving Repr, DecidableEq

/-- Observable events of one `handleUpload` run, in order: the `setFiles`
status updates and the two boundary calls (the ingestion POST and the
metadata insert). -/
inductive UploadEvent
  | setUploading (i : Nat)
  | transferRequest (i : Nat)
  | saveAttempt (i : Nat)
  | setTerminal (i : Nat) (st : FileStatus)
  deriving Repr, DecidableEq

/-- File index an event belongs to. -/
def evIdx : UploadEvent → Nat
  | .setUploading i => i
  | .transferRequest i => i
  | .saveAttempt i => i
  | .setTerminal i _ => i

/-- External world of one `handleUpload` run: the ingestion response and the
metadata-insert outcome for each file index, and `Date.now()`. -/
structure RunEnv where
  transfer : Nat → HttpResponse
  saveFails : Nat → Option String
  nowMs : Nat

/-- Validated-token context the public upload page runs in, plus the typed
uploader name. -/
structure BatchCtx where
  claimId : String
  companyId : String
  uploaderName : String
  token : String

/-- State threaded through the loop: the live `files` React state, the
document table, and the event log. -/
structure OrchestState where
  files : List UploadedFile
  db : List DbRow
  events : List UploadEvent

/-- `setFiles(prev => prev.map((f, idx) => idx === i ? upd(f) : f))`:
pointwise update at index `i`, identity elsewhere. -/
def setFilesAt : List UploadedFile → Nat → (UploadedFile → UploadedFile) →
    List UploadedFile
  | [], _, _ => []
  | f :: fs, 0, upd => upd f :: fs
  | f :: fs, Nat.succ i, upd => f :: setFilesAt fs i upd

/-- One iteration of `handleUpload`'s `for` loop: process the `i`-th file of
the render-time snapshot (skipped when its snapshot status is already
`success`): mark it `uploading`, call `uploadDocument`, then
`saveUploadedDocument`, and record the terminal status (keeping the thrown
message on failure, the stored URL on success). -/
def processFile (env : RunEnv) (ctx : BatchCtx) (snapshot : List UploadedFile)
    (i : Nat) (s : OrchestState) : OrchestState :=
  match snapshot[i]? with
  | none => s
  | some fd =>
    if fd.status = .success then s
    else
      let s1 : OrchestState :=
        { s with
          files := setFilesAt s.files i (fun f => { f with status := .uploading })
          events := s.events ++ [.setUploading i] }
      let att := uploadDocument (env.transfer i) fd.file
      let s2 : OrchestState :=
        { s1 with
          events := s1.events ++ (if att.fetched then [.transferRequest i] else []) }
      match att.result with
      | .error msg =>
        { s2 with
          files := setFilesAt s2.files i
            (fun f => { f with status := .error, errorMsg := some msg })
          events := s2.events ++ [.setTerminal i .error] }
      | .ok resp =>
        let s3 : OrchestState :=
          { s2 with events := s2.events ++ [.saveAttempt i] }
        match saveUploadedDocument (env.saveFails i) env.nowMs s3.db ctx.claimId
            ctx.companyId fd.file.name resp.url fd.file.size ctx.uploaderName
            ctx.token with
        | .error msg =>
          { s3 with
            files := setFilesAt s3.files i
              (fun f => { f with status := .error, errorMsg := some msg })
            events := s3.events ++ [.setTerminal i .error] }
        | .ok db' =>
          { s3 with
            files := setFilesAt s3.files i
              (fun f => { f with status := .success, url := some resp.url })
            db := db'
            events := s3.events ++ [.setTerminal i .success] }

/-- ASCII whitespace for the character-level model of `String.trim`. -/
def isSpaceChar (c : Char) : Bool :=
  c = ' ' || c = '\t' || c = '\n' || c = '\r'

/-- Character-level model of JavaScript `String.trim()`. -/
def strTrim (s : String) : String :=
  ⟨((s.toList.dropWhile isSpaceChar).reverse.dropWhile isSpaceChar).reverse⟩

/-- The first `n` iterations of `handleUpload`'s `for` loop. -/
def runLoop (env : RunEnv) (ctx : BatchCtx) (files0 : List UploadedFile)
    (db : List DbRow) (n : Nat) : OrchestState :=
  (List.range n).foldl (fun s i => processFile env ctx files0 i s)
    { files := files0, db := db, events := [] }

/-- `handleUpload` from `src/pages/PublicUpload.tsx`: guards (empty uploader
name, no files), then the sequential `for` loop over the render-time
snapshot `files0`. The closing aggregate-success toast counts successes over
that same stale snapshot `files0`, not over the live state. Returns the
final state and whether the "All N files uploaded successfully!" toast
fired. -/
def handleUpload (env : RunEnv) (ctx : BatchCtx) (files0 : List UploadedFile)
    (db : List DbRow) : OrchestState × Bool :=
  if strTrim ctx.uploaderName = "" then
    ({ files := files0, db := db, events := [] }, false)
  else if files0.length = 0 then
    ({ files := files0, db := db, events := [] }, false)
  else
    let final := runLoop env ctx files0 db files0.length
    let successCount :=
      (files0.filter (fun f => f.status == FileStatus.success)).length
    (final, successCount == files0.length)

/-- Terminal result of processing the `i`-th file: the net effect of its
status updates (runs of `handleUpload` leave a snapshot-`success` file
untouched). -/
def processedFile (env : RunEnv) (i : Nat)
    (fd : UploadedFile) : UploadedFile :=
  if fd.status = .success then fd
  else
    match (uploadDocument (env.transfer i) fd.file).result with
    | .error msg => { fd with status := .error, errorMsg := some msg }
    | .ok resp =>
      match env.saveFails i with
      | some msg => { fd with status := .error, errorMsg := some msg }
      | none => { fd with status := .success, url := some resp.url }

/-- Terminal status the `i`-th (non-skipped) file reaches. -/
def terminalStat (env : RunEnv) (fd : UploadedFile) (i : Nat) : FileStatus :=
  match (uploadDocument (env.transfer i) fd.file).result with
  | .error _ => .error
  | .ok _ =>
    match env.saveFails i with
    | some _ => .error
    | none => .success

/-- Events emitted by the `i`-th loop iteration. -/
def evBlock (env : RunEnv) (snapshot : List UploadedFile) (i : Nat) :
    List UploadEvent :=
  match snapshot[i]? with
  | none => []
  | some fd =>
    if fd.status = .success then []
    else
      [.setUploading i]
        ++ (if (uploadDocument (env.transfer i) fd.file).fetched
            then [.transferRequest i] else [])
        ++ (match (uploadDocument (env.transfer i) fd.file).result with
            | .error _ => []
            | .ok _ => [.saveAttempt i])
        ++ [.setTerminal i (terminalStat env fd i)]

/-- Document rows inserted by the `i`-th loop iteration, expressed against
the table as it stood at the start of the run (later-inserted rows carry no
`upload_token`, so the issuer lookup sees through them). -/
def dbBlock (env : RunEnv) (ctx : BatchCtx) (db0 : List DbRow)
    (snapshot : List UploadedFile) (i : Nat) : List DbRow :=
  match snapshot[i]? with
  | none => []
  | some fd =>
    if fd.status = .success then []
    else
      match (uploadDocument (env.transfer i) fd.file).result with
      | .error _ => []
      | .ok resp =>
        match env.saveFails i with
        | some _ => []
        | none => [savedRowOf db0 env.nowMs ctx.claimId ctx.companyId
            fd.file.name resp.url fd.file.size ctx.uploaderName ctx.token]

theorem setFilesAt_length (files : List UploadedFile) (i : Nat)
    (upd : UploadedFile → UploadedFile) :
    (setFilesAt files i upd).length = files.length := by
  induction files generalizing i with
  | nil => rfl
  | cons f fs ih =>
    cases i with
    | zero => rfl
    | succ i => simp only [setFilesAt, List.length_cons, ih]

theorem setFilesAt_getElem?_ne (files : List UploadedFile) (i : Nat)
    (upd : UploadedFile → UploadedFile) (j : Nat) (h : j ≠ i) :
    (setFilesAt files i upd)[j]? = files[j]? := by
  induction files generalizing i j with
  | nil => rfl
  | cons f fs ih =>
    cases i with
    | zero =>
      cases j with
      | zero => exact absurd rfl h
      | succ j => simp [setFilesAt]
    | succ i =>
      cases j with
      | zero => simp [setFilesAt]
      | succ j =>
        simp only [setFilesAt, List.getElem?_cons_succ]
        exact ih i j (fun hh => h (by rw [hh]))

theorem setFilesAt_getElem?_eq (files : List UploadedFile) (i : Nat)
    (upd : UploadedFile → UploadedFile) :
    (setFilesAt files i upd)[i]? = files[i]?.map upd := by
  induction files generalizing i with
  | nil => simp [setFilesAt]
  | cons f fs ih =>
    cases i with
    | zero => simp [setFilesAt]
    | succ i =>
      simp only [setFilesAt, List.getElem?_cons_succ]
      exact ih i

theorem processFile_skip (env : RunEnv) (ctx : BatchCtx)
    (snapshot : List UploadedFile) (i : Nat) (s : OrchestState)
    (fd : UploadedFile) (hfd : snapshot[i]? = some fd)
    (hs : fd.status = .success) :
    processFile env ctx snapshot i s = s := by
  unfold processFile
  rw [hfd]
  dsimp only
  rw [if_pos hs]

theorem processFile_transfer_error (env : RunEnv) (ctx : BatchCtx)
    (snapshot : List UploadedFile) (i : Nat) (s : OrchestState)
    (fd : UploadedFile) (msg : String) (hfd : snapshot[i]? = some fd)
    (hns : ¬ fd.status = .success)
    (hres : (uploadDocument (env.transfer i) fd.file).result = .error msg) :
    processFile env ctx snapshot i s =
      { files := setFilesAt
          (setFilesAt s.files i (fun f => { f with status := .uploading })) i
          (fun f => { f with status := .error, errorMsg := some msg })
        db := s.db
        events := s.events ++ ([.setUploading i]
          ++ (if (uploadDocument (env.transfer i) fd.file).fetched
              then [.transferRequest i] else [])
          ++ [.setTerminal i .error]) } := by
  unfold processFile
  rw [hfd]
  dsimp only
  rw [if_neg hns, hres]
  simp [List.append_assoc]

theorem processFile_save_error (env : RunEnv) (ctx : BatchCtx)
    (snapshot : List UploadedFile) (i : Nat) (s : OrchestState)
    (fd : UploadedFile) (resp : UploadDocumentResponse) (msg : String)
    (hfd : snapshot[i]? = some fd) (hns : ¬ fd.status = .success)
    (hres : (uploadDocument (env.transfer i) fd.file).result = .ok resp)
    (hsv : env.saveFails i = some msg) :
    processFile env ctx snapshot i s =
      { files := setFilesAt
          (setFilesAt s.files i (fun f => { f with status := .uploading })) i
          (fun f => { f with status := .error, errorMsg := some msg })
        db := s.db
        events := s.events ++ ([.setUploading i]
          ++ (if (uploadDocument (env.transfer i) fd.file).fetched
              then [.transferRequest i] else [])
          ++ [.saveAttempt i]
          ++ [.setTerminal i .error]) } := by
  unfold processFile
  rw [hfd]
  dsimp only
  rw [if_neg hns, hres]
  dsimp only [saveUploadedDocument]
  rw [hsv]
  simp [List.append_assoc]

theorem processFile_save_ok (env : RunEnv) (ctx : BatchCtx)
    (snapshot : List UploadedFile) (i : Nat) (s : OrchestState)
    (fd : UploadedFile) (resp : UploadDocumentResponse)
    (hfd : snapshot[i]? = some fd) (hns : ¬ fd.status = .success)
    (hres : (uploadDocument (env.transfer i) fd.file).result = .ok resp)
    (hsv : env.saveFails i = none) :
    processFile env ctx snapshot i s =
      { files := setFilesAt
          (setFilesAt s.files i (fun f => { f with status := .uploading })) i
          (fun f => { f with status := .success, url := some resp.url })
        db := s.db ++ [savedRowOf s.db env.nowMs ctx.claimId ctx.companyId
          fd.file.name resp.url fd.file.size ctx.uploaderName ctx.token]
        events := s.events ++ ([.setUploading i]
          ++ (if (uploadDocument (env.transfer i) fd.file).fetched
              then [.transferRequest i] else [])
          ++ [.saveAttempt i]
          ++ [.setTerminal i .success]) } := by
  unfold processFile
  rw [hfd]
  dsimp only
  rw [if_neg hns, hres]
  dsimp only [saveUploadedDocument]
  rw [hsv]
  simp [List.append_assoc]

theorem saveLookupPred_no_token (tok : String) (r : DbRow)
    (hr : r.upload_token = none) : saveLookupPred tok r = false := by
  unfold saveLookupPred
  rw [hr]
  rfl

theorem tokenIssuerOf_append_no_token (db E : List DbRow)
    (hE : ∀ r ∈ E, r.upload_token = none) (tok : String) :
    tokenIssuerOf (db ++ E) tok = tokenIssuerOf db tok := by
  unfold tokenIssuerOf
  have hnil : E.filter (saveLookupPred tok) = [] := by
    rw [List.filter_eq_nil_iff]
    intro r hr
    simp [saveLookupPred_no_token tok r (hE r hr)]
  rw [List.filter_append, hnil, List.append_nil]

theorem savedRowOf_append_no_token (db E : List DbRow)
    (hE : ∀ r ∈ E, r.upload_token = none) (nowMs : Nat)
    (c co fn url : String) (sz : Nat) (un tok : String) :
    savedRowOf (db ++ E) nowMs c co fn url sz un tok =
      savedRowOf db nowMs c co fn url sz un tok := by
  unfold savedRowOf
  rw [tokenIssuerOf_append_no_token db E hE tok]

theorem dbBlock_no_token (env : RunEnv) (ctx : BatchCtx) (db0 : List DbRow)
    (snapshot : List UploadedFile) (i : Nat) :
    ∀ r ∈ dbBlock env ctx db0 snapshot i, r.upload_token = none := by
  intro r hr
  unfold dbBlock at hr
  split at hr
  · cases hr
  · split at hr
    · cases hr
    · split at hr
      · cases hr
      · split at hr
        · cases hr
        · rw [List.mem_singleton] at hr
          subst hr
          rfl

theorem flatMap_dbBlock_no_token (env : RunEnv) (ctx : BatchCtx)
    (db0 : List DbRow) (snapshot : List UploadedFile) (n : Nat) :
    ∀ r ∈ (List.range n).flatMap (dbBlock env ctx db0 snapshot),
      r.upload_token = none := by
  intro r hr
  rw [List.mem_flatMap] at hr
  obtain ⟨i, -, hri⟩ := hr
  exact dbBlock_no_token env ctx db0 snapshot i r hri

theorem evBlock_idx (env : RunEnv) (snapshot : List UploadedFile) (j : Nat) :
    ∀ e ∈ evBlock env snapshot j, evIdx e = j := by
  intro e he
  unfold evBlock at he
  split at he
  · cases he
  · split at he
    · cases he
    · simp only [List.append_assoc, List.mem_append, List.mem_singleton] at he
      rcases he with h | h | h | h
      · subst h; rfl
      · split at h
        · rw [List.mem_singleton] at h; subst h; rfl
        · cases h
      · split at h
        · cases h
        · rw [List.mem_singleton] at h; subst h; rfl
      · subst h; rfl

/-- Decomposition of the first `n` loop iterations: the event log and the
inserted rows concatenate the per-iteration blocks in index order, file slots
below `n` hold their processed values, and slots at or above `n` are
untouched. -/
theorem runLoop_spec (env : RunEnv) (ctx : BatchCtx)
    (files0 : List UploadedFile) (db0 : List DbRow) :
    ∀ n, n ≤ files0.length →
      (runLoop env ctx files0 db0 n).events
          = (List.range n).flatMap (evBlock env files0)
      ∧ (runLoop env ctx files0 db0 n).db
          = db0 ++ (List.range n).flatMap (dbBlock env ctx db0 files0)
      ∧ (runLoop env ctx files0 db0 n).files.length = files0.length
      ∧ (∀ j, n ≤ j → (runLoop env ctx files0 db0 n).files[j]? = files0[j]?)
      ∧ (∀ j, j < n → (runLoop env ctx files0 db0 n).files[j]?
          = files0[j]?.map (processedFile env j)) := by
  intro n
  induction n with
  | zero =>
    intro _
    exact ⟨rfl, by simp [runLoop], rfl, fun j _ => rfl,
           fun j hj => absurd hj (by omega)⟩
  | succ n ih =>
    intro hn
    obtain ⟨ihev, ihdb, ihlen, ihge, ihlt⟩ := ih (by omega)
    have hstep : runLoop env ctx files0 db0 (n + 1)
        = processFile env ctx files0 n (runLoop env ctx files0 db0 n) := by
      unfold runLoop
      rw [List.range_succ, List.foldl_append]
      rfl
    have hnlt : n < files0.length := by omega
    obtain ⟨fd, hfd⟩ : ∃ fd, files0[n]? = some fd :=
      ⟨files0[n], List.getElem?_eq_getElem hnlt⟩
    have hlive : (runLoop env ctx files0 db0 n).files[n]? = some fd := by
      rw [ihge n (Nat.le_refl n), hfd]
    by_cases hsucc : fd.status = .success
    · have hpf : processFile env ctx files0 n (runLoop env ctx files0 db0 n)
          = runLoop env ctx files0 db0 n :=
        processFile_skip env ctx files0 n _ fd hfd hsucc
      have hev : evBlock env files0 n = [] := by
        unfold evBlock; rw [hfd]; dsimp only; rw [if_pos hsucc]
      have hdbb : dbBlock env ctx db0 files0 n = [] := by
        unfold dbBlock; rw [hfd]; dsimp only; rw [if_pos hsucc]
      rw [hstep, hpf]
      refine ⟨?_, ?_, ihlen, ?_, ?_⟩
      · rw [ihev, List.range_succ, List.flatMap_append]
        simp [hev]
      · rw [ihdb, List.range_succ, List.flatMap_append]
        simp [hdbb]
      · intro j hj; exact ihge j (by omega)
      · intro j hj
        by_cases hjn : j < n
        · exact ihlt j hjn
        · have hje : j = n := by omega
          subst hje
          rw [ihge j (Nat.le_refl j), hfd]
          have hproc : processedFile env j fd = fd := by
            unfold processedFile; rw [if_pos hsucc]
          simp [hproc]
    · cases hres : (uploadDocument (env.transfer n) fd.file).result with
      | error msg =>
        have hpf := processFile_transfer_error env ctx files0 n
          (runLoop env ctx files0 db0 n) fd msg hfd hsucc hres
        have hev : evBlock env files0 n = [.setUploading n]
            ++ (if (uploadDocument (env.transfer n) fd.file).fetched
                then [.transferRequest n] else [])
            ++ [.setTerminal n .error] := by
          unfold evBlock terminalStat
          rw [hfd]
          dsimp only
          rw [if_neg hsucc, hres]
          simp
        have hdbb : dbBlock env ctx db0 files0 n = [] := by
          unfold dbBlock; rw [hfd]; dsimp only; rw [if_neg hsucc, hres]
        have hproc : processedFile env n fd
            = { fd with status := .error, errorMsg := some msg } := by
          unfold processedFile; rw [if_neg hsucc, hres]
        rw [hstep, hpf]
        dsimp only
        refine ⟨?_, ?_, ?_, ?_, ?_⟩
        · rw [ihev, List.range_succ, List.flatMap_append]
          simp [hev, List.append_assoc]
        · rw [ihdb, List.range_succ, List.flatMap_append]
          simp [hdbb]
        · rw [setFilesAt_length, setFilesAt_length, ihlen]
        · intro j hj
          rw [setFilesAt_getElem?_ne _ _ _ j (by omega),
              setFilesAt_getElem?_ne _ _ _ j (by omega)]
          exact ihge j (by omega)
        · intro j hj
          by_cases hjn : j < n
          · rw [setFilesAt_getElem?_ne _ _ _ j (by omega),
                setFilesAt_getElem?_ne _ _ _ j (by omega)]
            exact ihlt j hjn
          · have hje : j = n := by omega
            subst hje
            rw [setFilesAt_getElem?_eq, setFilesAt_getElem?_eq, hlive, hfd]
            simp [hproc]
      | ok resp =>
        cases hsv : env.saveFails n with
        | some msg =>
          have hpf := processFile_save_error env ctx files0 n
            (runLoop env ctx files0 db0 n) fd resp msg hfd hsucc hres hsv
          have hev : evBlock env files0 n = [.setUploading n]
              ++ (if (uploadDocument (env.transfer n) fd.file).fetched
                  then [.transferRequest n] else [])
              ++ [.saveAttempt n]
              ++ [.setTerminal n .error] := by
            unfold evBlock terminalStat
            rw [hfd]
            dsimp only
            rw [if_neg hsucc, hres, hsv]
          have hdbb : dbBlock env ctx db0 files0 n = [] := by
            unfold dbBlock; rw [hfd]; dsimp only; rw [if_neg hsucc, hres, hsv]
          have hproc : processedFile env n fd
              = { fd with status := .error, errorMsg := some msg } := by
            unfold processedFile; rw [if_neg hsucc, hres, hsv]
          rw [hstep, hpf]
          dsimp only
          refine ⟨?_, ?_, ?_, ?_, ?_⟩
          · rw [ihev, List.range_succ, List.flatMap_append]
            simp [hev, List.append_assoc]
          · rw [ihdb, List.range_succ, List.flatMap_append]
            simp [hdbb]
          · rw [setFilesAt_length, setFilesAt_length, ihlen]
          · intro j hj
            rw [setFilesAt_getElem?_ne _ _ _ j (by omega),
                setFilesAt_getElem?_ne _ _ _ j (by omega)]
            exact ihge j (by omega)
          · intro j hj
            by_cases hjn : j < n
            · rw [setFilesAt_getElem?_ne _ _ _ j (by omega),
                  setFilesAt_getElem?_ne _ _ _ j (by omega)]
              exact ihlt j hjn
            · have hje : j = n := by omega
              subst hje
              rw [setFilesAt_getElem?_eq, setFilesAt_getElem?_eq, hlive, hfd]
              simp [hproc]
        | none =>
          have hpf := processFile_save_ok env ctx files0 n
            (runLoop env ctx files0 db0 n) fd resp hfd hsucc hres hsv
          have hev : evBlock env files0 n = [.setUploading n]
              ++ (if (uploadDocument (env.transfer n) fd.file).fetched
                  then [.transferRequest n] else [])
              ++ [.saveAttempt n]
              ++ [.setTerminal n .success] := by
            unfold evBlock terminalStat
            rw [hfd]
            dsimp only
            rw [if_neg hsucc, hres, hsv]
          have hdbb : dbBlock env ctx db0 files0 n
              = [savedRowOf db0 env.nowMs ctx.claimId ctx.companyId
                  fd.file.name resp.url fd.file.size ctx.uploaderName
                  ctx.token] := by
            unfold dbBlock; rw [hfd]; dsimp only; rw [if_neg hsucc, hres, hsv]
          have hproc : processedFile env n fd
              = { fd with status := .success, url := some resp.url } := by
            unfold processedFile; rw [if_neg hsucc, hres, hsv]
          have hrowstable : savedRowOf (runLoop env ctx files0 db0 n).db
                env.nowMs ctx.claimId ctx.companyId fd.file.name resp.url
                fd.file.size ctx.uploaderName ctx.token
              = savedRowOf db0 env.nowMs ctx.claimId ctx.companyId
                  fd.file.name resp.url fd.file.size ctx.uploaderName
                  ctx.token := by
            rw [ihdb]
            exact savedRowOf_append_no_token db0 _
              (flatMap_dbBlock_no_token env ctx db0 files0 n) env.nowMs
              ctx.claimId ctx.companyId fd.file.name resp.url fd.file.size
              ctx.uploaderName ctx.token
          rw [hstep, hpf]
          dsimp only
          refine ⟨?_, ?_, ?_, ?_, ?_⟩
          · rw [ihev, List.range_succ, List.flatMap_append]
            simp [hev, List.append_assoc]
          · rw [hrowstable, ihdb, List.range_succ, List.flatMap_append]
            simp [hdbb]
          · rw [setFilesAt_length, setFilesAt_length, ihlen]
          · intro j hj
            rw [setFilesAt_getElem?_ne _ _ _ j (by omega),
                setFilesAt_getElem?_ne _ _ _ j (by omega)]
            exact ihge j (by omega)
          · intro j hj
            by_cases hjn : j < n
            · rw [setFilesAt_getElem?_ne _ _ _ j (by omega),
                  setFilesAt_getElem?_ne _ _ _ j (by omega)]
              exact ihlt j hjn
            · have hje : j = n := by omega
              subst hje
              rw [setFilesAt_getElem?_eq, setFilesAt_getElem?_eq, hlive, hfd]
              simp [hproc]

/-- When both guards pass, `handleUpload` runs the loop over all indices and
fires the toast iff the stale snapshot was already all-`success`. -/
theorem handleUpload_run (env : RunEnv) (ctx : BatchCtx)
    (files0 : List UploadedFile) (db0 : List DbRow)
    (hname : ¬ strTrim ctx.uploaderName = "") (hne : files0.length ≠ 0) :
    handleUpload env ctx files0 db0
      = (runLoop env ctx files0 db0 files0.length,
         (files0.filter (fun f => f.status == FileStatus.success)).length
           == files0.length) := by
  unfold handleUpload
  rw [if_neg hname, if_neg hne]

theorem processedFile_status (env : RunEnv) (i : Nat) (fd : UploadedFile)
    (hns : ¬ fd.status = .success) :
    (processedFile env i fd).status = terminalStat env fd i := by
  unfold processedFile terminalStat
  rw [if_neg hns]
  cases (uploadDocument (env.transfer i) fd.file).result with
  | error msg => rfl
  | ok resp =>
    cases env.saveFails i with
    | some m => rfl
    | none => rfl

theorem terminalStat_cases (env : RunEnv) (fd : UploadedFile) (i : Nat) :
    terminalStat env fd i = .success ∨ terminalStat env fd i = .error := by
  unfold terminalStat
  cases (uploadDocument (env.transfer i) fd.file).result with
  | error msg => exact Or.inr rfl
  | ok resp =>
    cases env.saveFails i with
    | some m => exact Or.inr rfl
    | none => exact Or.inl rfl

/-- In the concatenated trace, any event of an earlier block occurs at a
strictly earlier position than any event of a later block. -/
theorem flatMap_range_ordered (g : Nat → List UploadEvent) (n i j : Nat)
    (hij : i < j) (hjn : j < n) (a b : UploadEvent)
    (ha : a ∈ g i) (hb : b ∈ g j) :
    ∃ p q : Nat, p < q ∧ ((List.range n).flatMap g)[p]? = some a
      ∧ ((List.range n).flatMap g)[q]? = some b := by
  have hsplit : (List.range n).flatMap g
      = (List.range (i + 1)).flatMap g
        ++ ((List.range (n - (i + 1))).map (i + 1 + ·)).flatMap g := by
    have hn : n = (i + 1) + (n - (i + 1)) := by omega
    nth_rewrite 1 [hn]
    rw [List.range_add, List.flatMap_append]
  have haX : a ∈ (List.range (i + 1)).flatMap g :=
    List.mem_flatMap.mpr ⟨i, List.mem_range.mpr (by omega), ha⟩
  have hbY : b ∈ ((List.range (n - (i + 1))).map (i + 1 + ·)).flatMap g := by
    refine List.mem_flatMap.mpr ⟨j, ?_, hb⟩
    refine List.mem_map.mpr ⟨j - (i + 1), List.mem_range.mpr (by omega), by omega⟩
  obtain ⟨p, hp⟩ := List.mem_iff_getElem?.mp haX
  obtain ⟨q, hq⟩ := List.mem_iff_getElem?.mp hbY
  have hplen : p < ((List.range (i + 1)).flatMap g).length := by
    obtain ⟨h, -⟩ := List.getElem?_eq_some_iff.mp hp
    exact h
  refine ⟨p, ((List.range (i + 1)).flatMap g).length + q, by omega, ?_, ?_⟩
  · rw [hsplit, List.getElem?_append_left hplen]
    exact hp
  · rw [hsplit, List.getElem?_append_right (by omega)]
    have hsub : ((List.range (i + 1)).flatMap g).length + q
        - ((List.range (i + 1)).flatMap g).length = q := by omega
    rw [hsub]
    exact hq

/-- Counting an event whose index is `i` in the concatenated trace reduces
to counting it in block `i`. -/
theorem count_flatMap_range (g : Nat → List UploadEvent) (n i : Nat)
    (hin : i < n) (e : UploadEvent)
    (hidx : ∀ j, ∀ a ∈ g j, evIdx a = j) (hie : evIdx e = i) :
    ((List.range n).flatMap g).count e = (g i).count e := by
  induction n with
  | zero => omega
  | succ n ih =>
    rw [List.range_succ, List.flatMap_append, List.count_append]
    have hsing : ([n].flatMap g).count e = (g n).count e := by
      simp [List.flatMap]
    rw [hsing]
    by_cases hni : i = n
    · subst hni
      have hz : ((List.range i).flatMap g).count e = 0 := by
        apply List.count_eq_zero_of_not_mem
        intro hmem
        rw [List.mem_flatMap] at hmem
        obtain ⟨j, hj, hgj⟩ := hmem
        rw [List.mem_range] at hj
        have := hidx j e hgj
        omega
      rw [hz, Nat.zero_add]
    · have hlt : i < n := by omega
      rw [ih hlt]
      have hz : (g n).count e = 0 := by
        apply List.count_eq_zero_of_not_mem
        intro hmem
        have := hidx n e hmem
        omega
      rw [hz, Nat.add_zero]

/-- An event whose index-`i` block is empty never occurs in the trace. -/
theorem not_mem_flatMap_of_block_empty (g : Nat → List UploadEvent) (n : Nat)
    (e : UploadEvent) (hidx : ∀ j, ∀ a ∈ g j, evIdx a = j)
    (hemp : g (evIdx e) = []) :
    e ∉ (List.range n).flatMap g := by
  intro hmem
  rw [List.mem_flatMap] at hmem
  obtain ⟨j, -, hgj⟩ := hmem
  have hj := hidx j e hgj
  rw [← hj, hemp] at hgj
  cases hgj

/-- Ingestion response representing a non-2xx failure with diagnostic text. -/
def exFailResp : HttpResponse where
  ok := false
  bodyText := "server says no"
  jsonUrl := none
  jsonFileUrl := none
  jsonFileName := none

/-- Run environment where every transfer and save succeeds. -/
def exRunEnv : RunEnv where
  transfer := fun _ => exRespOk
  saveFails := fun _ => none
  nowMs := 777

/-- Run environment where exactly file 1's transfer fails. -/
def exRunEnv3 : RunEnv where
  transfer := fun i => if i = 1 then exFailResp else exRespOk
  saveFails := fun _ => none
  nowMs := 777

/-- Validated batch context used in the concrete runs. -/
def exCtx : BatchCtx where
  claimId := "claim-1"
  companyId := "co-1"
  uploaderName := "Alice"
  token := "tok-1"

/-- A freshly selected (pending) file. -/
def exPend (nm : String) : UploadedFile where
  file := { name := nm, size := 1000 }
  status := .pending
  url := none
  errorMsg := none

/-- Three freshly selected files. -/
def exBatch3 : List UploadedFile :=
  [exPend "a.pdf", exPend "b.pdf", exPend "c.pdf"]

/-- C2: for a batch of freshly selected (all-`pending`) files with the guards
passed, `handleUpload` is strictly sequential and partial-failure tolerant:
the event log is exactly the concatenation, in index order, of per-file
blocks (first conjunct); each block opens with that file's
`pending → uploading` transition and closes with its single terminal
transition (second conjunct); every file ends in exactly one terminal state —
`success` when transfer and save both succeeded, `error` otherwise, with the
failing step's message retained (third conjunct); and file `i+1`'s
`uploading` event occurs strictly after file `i`'s terminal event (fourth
conjunct). -/
theorem handleUpload_batch_lifecycle (env : RunEnv) (ctx : BatchCtx)
    (files0 : List UploadedFile) (db0 : List DbRow)
    (hname : ¬ strTrim ctx.uploaderName = "")
    (hne : files0.length ≠ 0)
    (hpend : ∀ f ∈ files0, f.status = FileStatus.pending) :
    (handleUpload env ctx files0 db0).1.events
        = (List.range files0.length).flatMap (evBlock env files0)
    ∧ (∀ i fd, files0[i]? = some fd →
        evBlock env files0 i
          = [.setUploading i]
            ++ (if (uploadDocument (env.transfer i) fd.file).fetched
                then [.transferRequest i] else [])
            ++ (match (uploadDocument (env.transfer i) fd.file).result with
                | .error _ => []
                | .ok _ => [.saveAttempt i])
            ++ [.setTerminal i (terminalStat env fd i)])
    ∧ (∀ i, i < files0.length → ∃ fd, files0[i]? = some fd
        ∧ (handleUpload env ctx files0 db0).1.files[i]?
            = some (processedFile env i fd)
        ∧ (processedFile env i fd).status = terminalStat env fd i
        ∧ (terminalStat env fd i = .success ∨ terminalStat env fd i = .error)
        ∧ (∀ msg,
            (uploadDocument (env.transfer i) fd.file).result = .error msg →
            (processedFile env i fd).errorMsg = some msg)
        ∧ (∀ resp msg,
            (uploadDocument (env.transfer i) fd.file).result = .ok resp →
            env.saveFails i = some msg →
            (processedFile env i fd).errorMsg = some msg))
    ∧ (∀ i, i + 1 < files0.length → ∃ p q : Nat, p < q
        ∧ (∃ st, (handleUpload env ctx files0 db0).1.events[p]?
            = some (.setTerminal i st))
        ∧ (handleUpload env ctx files0 db0).1.events[q]?
            = some (.setUploading (i + 1))) := by
  have hrun := handleUpload_run env ctx files0 db0 hname hne
  obtain ⟨hev, hdb, hlen, hge, hlt⟩ :=
    runLoop_spec env ctx files0 db0 files0.length (Nat.le_refl _)
  have hblock : ∀ i fd, files0[i]? = some fd →
      evBlock env files0 i
        = [.setUploading i]
          ++ (if (uploadDocument (env.transfer i) fd.file).fetched
              then [.transferRequest i] else [])
          ++ (match (uploadDocument (env.transfer i) fd.file).result with
              | .error _ => []
              | .ok _ => [.saveAttempt i])
          ++ [.setTerminal i (terminalStat env fd i)] := by
    intro i fd hfd
    have hp := hpend fd (List.getElem?_mem hfd)
    have hns : ¬ fd.status = .success := by rw [hp]; intro h; cases h
    unfold evBlock
    rw [hfd]
    dsimp only
    rw [if_neg hns]
  rw [hrun]
  dsimp only
  rw [hev]
  refine ⟨rfl, hblock, ?_, ?_⟩
  · intro i hi
    obtain ⟨fd, hfd⟩ : ∃ fd, files0[i]? = some fd :=
      ⟨files0[i], List.getElem?_eq_getElem hi⟩
    have hp := hpend fd (List.getElem?_mem hfd)
    have hns : ¬ fd.status = .success := by rw [hp]; intro h; cases h
    refine ⟨fd, hfd, ?_, processedFile_status env i fd hns,
            terminalStat_cases env fd i, ?_, ?_⟩
    · rw [hlt i hi, hfd]
      rfl
    · intro msg hmsg
      unfold processedFile
      rw [if_neg hns, hmsg]
    · intro resp msg hok hsv
      unfold processedFile
      rw [if_neg hns, hok, hsv]
  · intro i hip
    obtain ⟨fdi, hfdi⟩ : ∃ fd, files0[i]? = some fd :=
      ⟨files0[i], List.getElem?_eq_getElem (by omega)⟩
    obtain ⟨fdj, hfdj⟩ : ∃ fd, files0[i + 1]? = some fd :=
      ⟨files0[i + 1], List.getElem?_eq_getElem (by omega)⟩
    have hai : UploadEvent.setTerminal i (terminalStat env fdi i)
        ∈ evBlock env files0 i := by
      rw [hblock i fdi hfdi]
      simp
    have haj : UploadEvent.setUploading (i + 1)
        ∈ evBlock env files0 (i + 1) := by
      rw [hblock (i + 1) fdj hfdj]
      simp
    obtain ⟨p, q, hpq, hp, hq⟩ := flatMap_range_ordered (evBlock env files0)
      files0.length i (i + 1) (by omega) hip _ _ hai haj
    exact ⟨p, q, hpq, ⟨terminalStat env fdi i, hp⟩, hq⟩

set_option maxRecDepth 65536 in
/-- C2 witness: a concrete 3-file batch in which file 2's transfer fails: the
trace decomposes sequentially, the run ends `[success, error, success]`, and
file 2's server diagnostic is retained. -/
theorem handleUpload_batch_lifecycle_witness :
    (handleUpload exRunEnv3 exCtx exBatch3 []).1.events
        = (List.range exBatch3.length).flatMap (evBlock exRunEnv3 exBatch3)
    ∧ (handleUpload exRunEnv3 exCtx exBatch3 []).1.files.map (fun f => f.status)
        = [.success, .error, .success]
    ∧ (handleUpload exRunEnv3 exCtx exBatch3 []).1.files.map
        (fun f => f.errorMsg)
        = [none, some "server says no", none] :=
  ⟨(handleUpload_batch_lifecycle exRunEnv3 exCtx exBatch3 [] (by decide)
      (by decide) (by decide)).1,
   by decide, by decide⟩

set_option maxRecDepth 65536 in
/-- C3 (code bug): `handleUpload` computes the aggregate-success count from
the stale render snapshot, not the live state: a fresh batch of one pending
file whose transfer and save both succeed ends all-`success`, yet the
"All N files uploaded successfully" toast does not fire (first two
conjuncts); the toast fires exactly when every file was already `success`
before the run (third conjunct); and no partial-count report exists anywhere
in the code. -/
theorem handleUpload_stale_success_report :
    (handleUpload exRunEnv exCtx [exPend "a.pdf"] []).1.files.map
        (fun f => f.status) = [.success]
    ∧ (handleUpload exRunEnv exCtx [exPend "a.pdf"] []).2 = false
    ∧ (handleUpload exRunEnv exCtx
        [{ exPend "a.pdf" with status := .success }] []).2 = true := by
  exact ⟨by decide, by decide, by decide⟩

/-- C8: for a selected (non-skipped, size-admissible) file whose ingestion
POST returns non-2xx, `uploadDocument` throws exactly the server-provided
body text ("Upload failed" when that text is empty); the file ends in `error`
with that message retained; the POST for that file is attempted exactly once
(no automatic retry); `saveUploadedDocument` is never invoked for it; and no
document row is written for it (its insert block is empty while the whole
run's table is the initial table plus the per-file insert blocks). -/
theorem handleUpload_transfer_failure (env : RunEnv) (ctx : BatchCtx)
    (files0 : List UploadedFile) (db0 : List DbRow)
    (hname : ¬ strTrim ctx.uploaderName = "")
    (hne : files0.length ≠ 0)
    (i : Nat) (fd : UploadedFile) (hfd : files0[i]? = some fd)
    (hns : ¬ fd.status = .success)
    (hok : (env.transfer i).ok = false)
    (hsize : ¬ fd.file.size > MAX_FILE_SIZE) :
    (uploadDocument (env.transfer i) fd.file).result
        = .error (if (env.transfer i).bodyText = "" then "Upload failed"
            else (env.transfer i).bodyText)
    ∧ (handleUpload env ctx files0 db0).1.files[i]?
        = some (processedFile env i fd)
    ∧ (processedFile env i fd).status = .error
    ∧ (processedFile env i fd).errorMsg
        = some (if (env.transfer i).bodyText = "" then "Upload failed"
            else (env.transfer i).bodyText)
    ∧ UploadEvent.saveAttempt i ∉ (handleUpload env ctx files0 db0).1.events
    ∧ (handleUpload env ctx files0 db0).1.events.count (.transferRequest i) = 1
    ∧ dbBlock env ctx db0 files0 i = []
    ∧ (handleUpload env ctx files0 db0).1.db
        = db0 ++ (List.range files0.length).flatMap
            (dbBlock env ctx db0 files0) := by
  have hi : i < files0.length := by
    obtain ⟨h, -⟩ := List.getElem?_eq_some_iff.mp hfd
    exact h
  have hres : (uploadDocument (env.transfer i) fd.file).result
      = .error (if (env.transfer i).bodyText = "" then "Upload failed"
          else (env.transfer i).bodyText) := by
    simp [uploadDocument, hsize, hok]
  have hfetch : (uploadDocument (env.transfer i) fd.file).fetched = true := by
    simp [uploadDocument, hsize, hok]
  have hterm : terminalStat env fd i = .error := by
    unfold terminalStat
    rw [hres]
  have hblocki : evBlock env files0 i
      = [.setUploading i, .transferRequest i, .setTerminal i .error] := by
    unfold evBlock
    rw [hfd]
    dsimp only
    rw [if_neg hns, hres, hfetch, hterm]
    simp
  have hdbbi : dbBlock env ctx db0 files0 i = [] := by
    unfold dbBlock
    rw [hfd]
    dsimp only
    rw [if_neg hns, hres]
  have hrun := handleUpload_run env ctx files0 db0 hname hne
  obtain ⟨hev, hdb, hlen, hge, hlt⟩ :=
    runLoop_spec env ctx files0 db0 files0.length (Nat.le_refl _)
  rw [hrun]
  dsimp only
  rw [hev, hdb]
  refine ⟨hres, ?_, ?_, ?_, ?_, ?_, hdbbi, rfl⟩
  · rw [hlt i hi, hfd]
    rfl
  · rw [processedFile_status env i fd hns, hterm]
  · unfold processedFile
    rw [if_neg hns, hres]
  · intro hmem
    rw [List.mem_flatMap] at hmem
    obtain ⟨j, -, hgj⟩ := hmem
    have hji := evBlock_idx env files0 j _ hgj
    have hj : j = i := by simpa [evIdx] using hji.symm
    subst hj
    rw [hblocki] at hgj
    simp at hgj
  · rw [count_flatMap_range (evBlock env files0) files0.length i hi
        (.transferRequest i) (evBlock_idx env files0) rfl, hblocki]
    simp [List.count_cons]

set_option maxRecDepth 65536 in
/-- C8 witness: in the 3-file run where file 1's transfer fails, no metadata
save is attempted for file 1, its POST happens exactly once, and its error
message is the server's diagnostic text. -/
theorem handleUpload_transfer_failure_witness :
    UploadEvent.saveAttempt 1
      ∉ (handleUpload exRunEnv3 exCtx exBatch3 []).1.events
    ∧ (handleUpload exRunEnv3 exCtx exBatch3 []).1.events.count
        (.transferRequest 1) = 1
    ∧ (processedFile exRunEnv3 1 (exPend "b.pdf")).errorMsg
        = some (if (exRunEnv3.transfer 1).bodyText = "" then "Upload failed"
            else (exRunEnv3.transfer 1).bodyText) :=
  ⟨(handleUpload_transfer_failure exRunEnv3 exCtx exBatch3 [] (by decide)
      (by decide) 1 (exPend "b.pdf") (by decide) (by decide) (by decide)
      (by decide)).2.2.2.2.1,
   (handleUpload_transfer_failure exRunEnv3 exCtx exBatch3 [] (by decide)
      (by decide) 1 (exPend "b.pdf") (by decide) (by decide) (by decide)
      (by decide)).2.2.2.2.2.1,
   (handleUpload_transfer_failure exRunEnv3 exCtx exBatch3 [] (by decide)
      (by decide) 1 (exPend "b.pdf") (by decide) (by decide) (by decide)
      (by decide)).2.2.2.1⟩

/-- C10: on every invocation of `handleUpload` (guards passed), a file whose
snapshot status is already `success` is skipped — its per-file block is
empty, it never enters `uploading`, and its entry is unchanged — while a
`pending` or `error` file is (re)processed: it enters `uploading` and ends in
a terminal state; hence invoking the upload action again re-attempts
previously failed files without re-uploading previously succeeded ones. -/
theorem handleUpload_skips_succeeded (env : RunEnv) (ctx : BatchCtx)
    (files0 : List UploadedFile) (db0 : List DbRow)
    (hname : ¬ strTrim ctx.uploaderName = "")
    (hne : files0.length ≠ 0)
    (i : Nat) (fd : UploadedFile) (hfd : files0[i]? = some fd) :
    (fd.status = .success →
        evBlock env files0 i = []
        ∧ UploadEvent.setUploading i
            ∉ (handleUpload env ctx files0 db0).1.events
        ∧ (handleUpload env ctx files0 db0).1.files[i]? = some fd)
    ∧ ((fd.status = .pending ∨ fd.status = .error) →
        UploadEvent.setUploading i ∈ (handleUpload env ctx files0 db0).1.events
        ∧ (handleUpload env ctx files0 db0).1.files[i]?
            = some (processedFile env i fd)
        ∧ ((processedFile env i fd).status = .success
            ∨ (processedFile env i fd).status = .error)) := by
  have hi : i < files0.length := by
    obtain ⟨h, -⟩ := List.getElem?_eq_some_iff.mp hfd
    exact h
  have hrun := handleUpload_run env ctx files0 db0 hname hne
  obtain ⟨hev, hdb, hlen, hge, hlt⟩ :=
    runLoop_spec env ctx files0 db0 files0.length (Nat.le_refl _)
  rw [hrun]
  dsimp only
  rw [hev]
  constructor
  · intro hsucc
    have hblocki : evBlock env files0 i = [] := by
      unfold evBlock
      rw [hfd]
      dsimp only
      rw [if_pos hsucc]
    refine ⟨hblocki, ?_, ?_⟩
    · exact not_mem_flatMap_of_block_empty (evBlock env files0) files0.length
        _ (evBlock_idx env files0) hblocki
    · rw [hlt i hi, hfd]
      have hpf : processedFile env i fd = fd := by
        unfold processedFile
        rw [if_pos hsucc]
      rw [Option.map_some', hpf]
  · intro hst
    have hns : ¬ fd.status = .success := by
      rcases hst with h | h <;> rw [h] <;> intro hh <;> cases hh
    refine ⟨?_, ?_, ?_⟩
    · have hmemblock : UploadEvent.setUploading i ∈ evBlock env files0 i := by
        unfold evBlock
        rw [hfd]
        dsimp only
        rw [if_neg hns]
        simp
      exact List.mem_flatMap.mpr ⟨i, List.mem_range.mpr hi, hmemblock⟩
    · rw [hlt i hi, hfd]
      rfl
    · rw [processedFile_status env i fd hns]
      exact terminalStat_cases env fd i

/-- File already uploaded in a previous run. -/
def exSuccFile : UploadedFile :=
  { exPend "a.pdf" with status := .success, url := some "u" }

/-- File that failed in a previous run. -/
def exErrFile : UploadedFile :=
  { exPend "b.pdf" with status := .error, errorMsg := some "old failure" }

/-- Snapshot of a re-invocation: one already-succeeded file, one failed. -/
def exBatchMixed : List UploadedFile := [exSuccFile, exErrFile]

set_option maxRecDepth 65536 in
/-- C10 witness: re-invoking on a mixed snapshot skips the succeeded file 0
(never re-enters `uploading`, entry unchanged) and re-attempts the failed
file 1. -/
theorem handleUpload_skips_succeeded_witness :
    UploadEvent.setUploading 0
      ∉ (handleUpload exRunEnv exCtx exBatchMixed []).1.events
    ∧ (handleUpload exRunEnv exCtx exBatchMixed []).1.files[0]?
        = some exSuccFile
    ∧ UploadEvent.setUploading 1
        ∈ (handleUpload exRunEnv exCtx exBatchMixed []).1.events :=
  ⟨((handleUpload_skips_succeeded exRunEnv exCtx exBatchMixed [] (by decide)
      (by decide) 0 exSuccFile (by decide)).1 (by decide)).2.1,
   ((handleUpload_skips_succeeded exRunEnv exCtx exBatchMixed [] (by decide)
      (by decide) 0 exSuccFile (by decide)).1 (by decide)).2.2,
   ((handleUpload_skips_succeeded exRunEnv exCtx exBatchMixed [] (by decide)
      (by decide) 1 exErrFile (by decide)).2 (Or.inr (by decide))).1⟩

end ClaimPortal
